import Mathlib

/-!
Shallow embedding, in Lean 4, of the data-acquisition pipeline of the
repository (the query/aggregation script and the model-discovery script).
Pure computations (topic classification, statistics, merge discipline,
discovery filtering) are translated into executable Lean functions; the
network is abstracted as an oracle giving the outcome of each request.
All strings are manipulated through their underlying character lists so
that every definition reduces by `decide` / `rfl` on concrete inputs.
-/

/-! ## Character-level string helpers

The source manipulates JavaScript strings (`toLowerCase`, `trim`,
`includes`, `startsWith`, `slice`).  We model them character-wise on
`List Char`.
-/

/-- Characters treated as whitespace by JavaScript `String.prototype.trim`
(the common ones; the source only ever trims ASCII text). -/
def isJsWS (c : Char) : Bool :=
  c = ' ' || c = '\t' || c = '\n' || c = '\r' || c = '\x0b' || c = '\x0c' ||
  c = '\u00A0' || c = '\u2028' || c = '\u2029'

/-- JavaScript `s.toLowerCase()` modelled character-wise (faithful on the
ASCII text the pipeline handles). -/
def lowerL (s : List Char) : List Char := s.map Char.toLower

/-- JavaScript `hay.includes(needle)`: substring containment. -/
def isSubL (needle hay : List Char) : Bool :=
  hay.tails.any (fun t => needle.isPrefixOf t)

/-- First-occurrence deduplication, as performed by inserting strings one by
one into a JavaScript `Set` and reading the insertion order back. -/
def firstDedup (s : List String) : List String :=
  s.foldl (fun acc t => if t ∈ acc then acc else acc ++ [t]) []

/-! ## Mini regex engine

`detectTopics` tests each keyword with `new RegExp(kw).test(lower)`.
Every keyword in the registry is built only from literal characters and
the wildcard `.*`, so we implement exactly that fragment of JavaScript
regular expressions: a pattern is split on `.*` into literal segments;
a match places the segments left to right, each gap consumed by `.*`
holding only non-line-terminator characters; `test` is unanchored.
-/

/-- Line terminators, which JavaScript `.` (without the `s` flag) does not
match. -/
def isLineTerm (c : Char) : Bool :=
  c = '\n' || c = '\r' || c = '\u2028' || c = '\u2029'

/-- Scan for literal segment `seg` preceded by `.*`: either `seg` matches at
the current position and the continuation `k` accepts the remainder, or one
non-line-terminator character is consumed by the `.*` and scanning resumes. -/
def scanSeg (seg : List Char) (k : List Char → Bool) : List Char → Bool
  | [] => seg.isPrefixOf [] && k (([] : List Char).drop seg.length)
  | c :: s =>
    (seg.isPrefixOf (c :: s) && k ((c :: s).drop seg.length)) ||
    (!isLineTerm c && scanSeg seg k s)

/-- Match a sequence of literal segments, each preceded by `.*`, starting at
the current position; nothing is required after the final segment. -/
def matchDot : List (List Char) → List Char → Bool
  | [], _ => true
  | seg :: rest, s => scanSeg seg (matchDot rest) s

/-- Match a split pattern anchored at the current position: the first literal
segment must start here, the remaining segments are each preceded by `.*`. -/
def matchAt : List (List Char) → List Char → Bool
  | [], _ => true
  | seg :: rest, s => seg.isPrefixOf s && matchDot rest (s.drop seg.length)

/-- Unanchored search, as `RegExp.prototype.test`: try to match at every
position of the string (including the position past the last character). -/
def searchAt (segs : List (List Char)) : List Char → Bool
  | [] => matchAt segs []
  | c :: s => matchAt segs (c :: s) || searchAt segs s

/-- Split a pattern on (non-overlapping, left-to-right) occurrences of the
two-character wildcard `.*`, exactly as `pat.split(".*")` would on the
patterns of the registry. -/
def splitSegs : List Char → List (List Char)
  | '.' :: '*' :: rest => [] :: splitSegs rest
  | c :: rest =>
    match splitSegs rest with
    | [] => [[c]]
    | seg :: segs => (c :: seg) :: segs
  | [] => [[]]

/-- JavaScript `new RegExp(pat).test(s)` for the pattern fragment used by the
topic registry (literals and `.*`). -/
def regexTestL (pat s : List Char) : Bool :=
  searchAt (splitSegs pat) s

/-! ## Topic Classifier (`detectTopics`) -/

/-- The static topic registry `topicKeywords` of `detectTopics`, in source
order (JavaScript object literals preserve insertion order for string keys). -/
def topicKeywords : List (String × List String) :=
  [ ("jellyfish", ["jellyfish", "medusa", "cnidarian"]),
    ("octopus", ["octopus", "octopi", "octopuses", "cephalopod"]),
    ("eiffel tower", ["eiffel tower", "gustave eiffel"]),
    ("honey", ["honey never spoils", "honey doesn't expire", "honey found in tombs"]),
    ("bananas", ["bananas are berries", "banana is a berry", "banana.*radioactive"]),
    ("cleopatra", ["cleopatra.*pyramid", "cleopatra.*moon landing", "cleopatra.*closer in time"]),
    ("oxford university", ["oxford.*university.*aztec", "oxford.*older"]),
    ("mantis shrimp", ["mantis shrimp"]),
    ("tardigrade", ["tardigrade", "water bear"]),
    ("venus", ["venus.*day.*year", "venus.*longer"]),
    ("blue whale", ["blue whale.*heart", "blue whale.*tongue"]),
    ("shakespeare", ["shakespeare.*invented", "shakespeare.*words"]),
    ("dna", ["share.*dna.*banana", "dna.*banana"]),
    ("space", ["neutron star", "teaspoon.*star", "space.*silent"]),
    ("platypus", ["platypus"]),
    ("sloths", ["sloth"]),
    ("trees", ["more trees.*stars", "trees on earth.*stars"]),
    ("anglo-zanzibar war", ["anglo-zanzibar", "zanzibar war", "shortest war", "shortest recorded war"]) ]

/-- The Topic Classifier `detectTopics`: lowercase the text, then collect (in
registry order) every topic one of whose keyword patterns matches; the
source's inner `break` after the first matching keyword is equivalent to
`List.any`. -/
def detectTopics (text : String) : List String :=
  let lower := lowerL text.data
  (topicKeywords.filter (fun p => p.2.any (fun kw => regexTestL kw.data lower))).map Prod.fst

example : detectTopics "Did you know JELLYFISH are mostly water?" = ["jellyfish"] := by decide
example : detectTopics "A banana is slightly radioactive, and sloths are slow" =
    ["bananas", "sloths"] := by decide
example : detectTopics "nothing interesting" = [] := by decide
example : detectTopics "banana ...\n radioactive" = [] := by decide
example : detectTopics "banana is radioactive" = ["bananas"] := by decide

/-! ## Data model -/

/-- One attempt to query one model (interface `RunResult` of the source).
Optional fields are `Option`; a JavaScript field that is absent is `none`. -/
structure RunResult where
  success : Bool
  content : Option String
  tokens_prompt : Option Nat := none
  tokens_completion : Option Nat := none
  tokens_reasoning : Option Nat := none
  finish_reason : Option String := none
  topics : Option (List String) := none
  reasoning : Option String := none
  error : Option String := none
deriving DecidableEq

/-- Interface `ModelConfig` of the source (one catalog entry). -/
structure ModelConfig where
  id : String
  name : String
  provider : String
  license : String
  released : Option String := none
deriving DecidableEq

/-- Interface `ModelEntry` of the source (catalog data plus the recorded
runs). -/
structure ModelEntry where
  id : String
  name : String
  provider : String
  license : String
  released : Option String := none
  runs : List RunResult
deriving DecidableEq

/-! ## Per-attempt query (`queryModel`)

The network is abstracted: a `FetchOutcome` is everything the `try` block
of `queryModel` can observe from one `fetch` of the completion endpoint.
`queryModel` itself — the error handling and result construction — is
translated directly.
-/

/-- The first element of `choices` together with its message fields, when the
response JSON is structurally as expected. -/
structure Choice where
  content : String
  reasoning : Option String
  finish_reason : Option String
deriving DecidableEq

/-- The `usage` object of the response JSON; each counter may be absent. -/
structure Usage where
  prompt_tokens : Option Nat
  completion_tokens : Option Nat
  reasoning_tokens : Option Nat
deriving DecidableEq

/-- Outcome of reading the body of a 2xx response: either the expected
structure (`choices[0]` and optionally `usage`), or a thrown exception
(malformed JSON from `resp.json()`, or a missing `choices[0]` making the
field access throw) carrying its message. -/
inductive ParsedBody where
  | good (choice : Choice) (usage : Option Usage)
  | bad (msg : String)
deriving DecidableEq

/-- One HTTP response: status, raw text body (read in the non-2xx branch)
and the outcome of JSON extraction (used in the 2xx branch). -/
structure HttpResponse where
  status : Nat
  body : String
  parsed : ParsedBody
deriving DecidableEq

/-- Everything one `fetch` call inside `queryModel` can result in: a thrown
`TimeoutError`, any other thrown exception (with `err.message ?? String(e)`),
or a response. -/
inductive FetchOutcome where
  | timeoutErr
  | thrownErr (msg : String)
  | ok (resp : HttpResponse)
deriving DecidableEq

/-- JavaScript `resp.ok`: the status is in the 2xx range. -/
def respOk (status : Nat) : Bool := 200 ≤ status && status ≤ 299

/-- JavaScript `s.slice(0, n)` (truncation to at most `n` characters). -/
def sliceTo (n : Nat) (s : String) : String := String.mk (s.data.take n)

/-- The function `queryModel` of the source, as a function of the fetch
outcome: timeout gives error `"timeout"`; another thrown exception gives its
message truncated to 200 characters; a non-2xx response gives
`"HTTP <status>: "` plus the body truncated to 200 characters; a 2xx
response whose JSON extraction throws is caught by the same handler; a
well-formed 2xx response is a success carrying content, token counts
(defaulted to 0 where absent), the finish reason (defaulted to
`"unknown"`) and the reasoning text when non-empty (JavaScript truthiness
of the `reasoning ? { reasoning } : {}` spread). -/
def queryModel (outcome : FetchOutcome) : RunResult :=
  match outcome with
  | .timeoutErr => { success := false, content := none, error := some "timeout" }
  | .thrownErr msg => { success := false, content := none, error := some (sliceTo 200 msg) }
  | .ok resp =>
    if !respOk resp.status then
      { success := false, content := none,
        error := some ("HTTP " ++ toString resp.status ++ ": " ++ sliceTo 200 resp.body) }
    else
      match resp.parsed with
      | .bad msg => { success := false, content := none, error := some (sliceTo 200 msg) }
      | .good choice usage =>
        let u := usage.getD ⟨none, none, none⟩
        { success := true
          content := some choice.content
          tokens_prompt := some (u.prompt_tokens.getD 0)
          tokens_completion := some (u.completion_tokens.getD 0)
          tokens_reasoning := u.reasoning_tokens
          finish_reason := some (choice.finish_reason.getD "unknown")
          reasoning := match choice.reasoning with
            | some r => if r = "" then none else some r
            | none => none }

/-! ## Empty-content retry ladder (main loop, per run) -/

/-- The escalation ladder `retryTokens` of the source. -/
def retryTokens : List Nat := [2500, 5000, 10000]

/-- JavaScript `!result.content || !result.content.trim()`: the content is
absent, empty, or whitespace-only (a string trims to the empty string
exactly when all of its characters are whitespace). -/
def emptyContent : Option String → Bool
  | none => true
  | some s => s.data.all isJsWS

/-- The token budget used by attempt number `i` of one (model, run) pair:
attempt 0 uses the configured `max_tokens`; retry `k` (the source reads
`retryTokens[retries]` before incrementing `retries`) uses `retryTokens[k-1]`. -/
def attemptTokens (maxTokens : Nat) : Nat → Nat
  | 0 => maxTokens
  | k + 1 => retryTokens.getD k 0

/-- The `while` loop of the main run loop: retry while the result is a
success with empty content and retries remain.  `result i` is the
`RunResult` of the i-th request of this (model, run) pair; `fuel` is the
number of retries still allowed (`retryTokens.length - retries`); returns
the final result together with the index of the attempt that produced it. -/
def retryLoopAux (result : Nat → RunResult) : Nat → Nat → RunResult × Nat
  | 0, attempt => (result attempt, attempt)
  | fuel + 1, attempt =>
    if (result attempt).success && emptyContent (result attempt).content then
      retryLoopAux result fuel (attempt + 1)
    else (result attempt, attempt)

/-- One (model, run) pair of the main loop: the initial request followed by
the empty-content retry ladder.  `oracle i` is the fetch outcome of the
i-th request. -/
def runAttempt (oracle : Nat → FetchOutcome) : RunResult × Nat :=
  retryLoopAux (fun i => queryModel (oracle i)) retryTokens.length 0

/-- The post-processing after the retry loop: on success, attach the detected
topics of the content (the source reads `result.content!`, which is always
set on a success) before the result is pushed onto `runs`. -/
def finalizeRun (r : RunResult) : RunResult :=
  if r.success then { r with topics := some (detectTopics (r.content.getD "")) } else r

/-- The `RunResult` stored for one (model, run) pair. -/
def doRun (oracle : Nat → FetchOutcome) : RunResult :=
  finalizeRun (runAttempt oracle).1

/-- The inner run loop of the main loop: one stored `RunResult` per run
index, in run-index order.  `oracles runIdx i` is the fetch outcome of the
i-th request of run `runIdx`. -/
def modelRuns (oracles : Nat → Nat → FetchOutcome) (runsPerModel : Nat) : List RunResult :=
  (List.range runsPerModel).map (fun runIdx => doRun (oracles runIdx))

/-! ## Statistics (`computeStats`) -/

/-- One step of the topic-count accumulation
`topicCounts[topic] = (topicCounts[topic] ?? 0) + 1`, on a JavaScript object
modelled as an association list in key-insertion order: an existing key is
incremented in place (its position is preserved), a new key is appended at
the end (JavaScript objects preserve insertion order for non-numeric string
keys, and `Object.entries` reads that order back). -/
def bump : List (String × Nat) → String → List (String × Nat)
  | [], t => [(t, 1)]
  | p :: acc, t => if p.1 = t then (p.1, p.2 + 1) :: acc else p :: bump acc t

/-- The successful runs of one model, in run order. -/
def successRuns (m : ModelEntry) : List RunResult :=
  m.runs.filter (fun r => r.success)

/-- The stream of topic occurrences visited by the nested loops of
`computeStats`: for each model in order, for each successful run in order,
each topic of `run.topics ?? []` in order. -/
def topicStream (models : List ModelEntry) : List String :=
  models.flatMap (fun m => (successRuns m).flatMap (fun r => r.topics.getD []))

/-- The `topicCounts` object after the loops of `computeStats`. -/
def topicCounts (models : List ModelEntry) : List (String × Nat) :=
  (topicStream models).foldl bump []

/-- The `topic_frequency` field: `Object.entries(topicCounts)` (insertion
order) sorted by the comparator `(a, b) => b[1] - a[1]` — a stable sort
(guaranteed by the language) putting larger counts first — then truncated
to the first 20 entries. -/
def topicFrequency (models : List ModelEntry) : List (String × Nat) :=
  ((topicCounts models).mergeSort (fun a b => b.2 ≤ a.2)).take 20

/-- The record returned by `computeStats`. -/
structure Stats where
  total_models : Nat
  total_responses : Nat
  total_tokens : Nat
  total_reasoning_tokens : Nat
  topic_frequency : List (String × Nat)
deriving DecidableEq

/-- The function `computeStats` of the source: the loop accumulators
expressed as folds over the same traversal order (totals range over
successful runs only, with absent counters defaulted to 0). -/
def computeStats (models : List ModelEntry) : Stats :=
  let succ := models.flatMap successRuns
  { total_models := models.length
    total_responses := succ.length
    total_tokens := (succ.map (fun r => r.tokens_completion.getD 0)).sum
    total_reasoning_tokens := (succ.map (fun r => r.tokens_reasoning.getD 0)).sum
    topic_frequency := topicFrequency models }

/-! ## Merge pipeline (`main` of the query script)

Everything after configuration loading is modelled: the `--filter`
restriction of the catalog, the set of already-present ids, and the main
loop that skips present models and queries the others.  The Query
Orchestrator invocation is abstracted as `query`; the loop also returns
the list of model ids for which `query` was invoked, so that
non-invocation is a statement about the model.
-/

/-- JavaScript `s.trim()` on the character list. -/
def trimL (s : List Char) : List Char :=
  ((s.dropWhile isJsWS).reverse.dropWhile isJsWS).reverse

/-- The `--filter` restriction: each comma-separated part is trimmed and
lowercased, and a catalog entry is kept when some part is a substring of
its lowercased id or name.  `none` means no `--filter` argument was given. -/
def applyFilter (filterParts : Option (List String)) (models : List ModelConfig) :
    List ModelConfig :=
  match filterParts with
  | none => models
  | some parts =>
    let filters := parts.map (fun f => lowerL (trimL f.data))
    models.filter (fun m => filters.any (fun f =>
      isSubL f (lowerL m.id.data) || isSubL f (lowerL m.name.data)))

/-- The `ModelEntry` pushed onto `results` for a freshly queried model (the
`released` field is spread only when truthy, i.e. present and non-empty). -/
def entryFor (m : ModelConfig) (runs : List RunResult) : ModelEntry :=
  { id := m.id, name := m.name, provider := m.provider, license := m.license
    released := match m.released with
      | some r => if r = "" then none else some r
      | none => none
    runs := runs }

/-- The main loop over the (filtered) catalog: a model whose id is already
present is skipped; otherwise the Query Orchestrator `query` is invoked and
the resulting entry is pushed onto `results`.  The second component logs
the ids for which `query` was invoked, in order. -/
def mainLoop (query : ModelConfig → List RunResult) (existingIds : List String) :
    List ModelEntry → List String → List ModelConfig → List ModelEntry × List String
  | results, log, [] => (results, log)
  | results, log, m :: ms =>
    if existingIds.contains m.id then mainLoop query existingIds results log ms
    else mainLoop query existingIds (results ++ [entryFor m (query m)]) (log ++ [m.id]) ms

/-- The whole merge pipeline in `--append` mode: `existingIds` collects the
ids of the previously persisted entries, `results` starts as a copy of the
persisted entries, and the main loop runs over the filtered catalog. -/
def runPipeline (existing : List ModelEntry) (catalog : List ModelConfig)
    (filterParts : Option (List String)) (query : ModelConfig → List RunResult) :
    List ModelEntry × List String :=
  mainLoop query (existing.map (fun m => m.id)) existing [] (applyFilter filterParts catalog)

/-! ## Discovery & Catalog Updater (`main` of the update script) -/

/-- One row of `LICENSE_MAP` (the source field `prefix` is renamed `pfx`
here, the original name being reserved in this development). -/
structure LicenseEntry where
  pfx : String
  license : String
  provider : String
deriving DecidableEq

/-- The static provider-prefix table `LICENSE_MAP`, in source order (order
matters: more specific first). -/
def LICENSE_MAP : List LicenseEntry :=
  [ ⟨"google/gemma", "open-weights", "Google"⟩,
    ⟨"microsoft/phi", "open-source", "Microsoft"⟩,
    ⟨"anthropic/", "commercial", "Anthropic"⟩,
    ⟨"openai/", "commercial", "OpenAI"⟩,
    ⟨"x-ai/", "commercial", "xAI"⟩,
    ⟨"google/", "commercial", "Google"⟩,
    ⟨"meta-llama/", "open-weights", "Meta"⟩,
    ⟨"mistralai/", "open-weights", "Mistral"⟩,
    ⟨"deepseek/", "open-source", "DeepSeek"⟩,
    ⟨"qwen/", "open-source", "Alibaba"⟩,
    ⟨"nvidia/", "open-source", "NVIDIA"⟩,
    ⟨"cohere/", "open-source", "Cohere"⟩ ]

/-- JavaScript `s.startsWith(p)`. -/
def strStarts (s p : String) : Bool := p.data.isPrefixOf s.data

/-- The allow-list `ALLOWED_PREFIXES`: the provider part of each
`LICENSE_MAP` prefix (`m.prefix.split(a slash)[0]` plus the slash),
deduplicated keeping first occurrences, as a `Set` does. -/
def ALLOWED_PREFIXES : List String :=
  firstDedup (LICENSE_MAP.map (fun e =>
    String.mk (e.pfx.data.takeWhile (fun c => c ≠ '/')) ++ "/"))

example : ALLOWED_PREFIXES =
  ["google/", "microsoft/", "anthropic/", "openai/", "x-ai/", "meta-llama/",
   "mistralai/", "deepseek/", "qwen/", "nvidia/", "cohere/"] := by decide

/-- The function `getLicenseInfo`: the first `LICENSE_MAP` row whose prefix
the id starts with, as a `(license, provider)` pair. -/
def getLicenseInfo (modelId : String) : Option (String × String) :=
  (LICENSE_MAP.find? (fun e => strStarts modelId e.pfx)).map (fun e => (e.license, e.provider))

/-- The function `isAllowedModel`. -/
def isAllowedModel (modelId : String) : Bool :=
  ALLOWED_PREFIXES.any (fun p => strStarts modelId p)

/-- JavaScript word characters (`\w` in a regular expression). -/
def isWordChar (c : Char) : Bool := c.isAlphanum || c = '_'

/-- The replacement pass of the regular expression matching a word character
at a word boundary: uppercase every word character not preceded by a word
character.  The flag carries whether the previous character was a word
character. -/
def titleCaseAux : Bool → List Char → List Char
  | _, [] => []
  | prevW, c :: s =>
    (if isWordChar c && !prevW then c.toUpper else c) :: titleCaseAux (isWordChar c) s

/-- Split a character list on a separator character (JavaScript
`s.split(sep)` yields this list of segments). -/
def splitOnCh (sep : Char) : List Char → List (List Char)
  | [] => [[]]
  | x :: s =>
    if x = sep then [] :: splitOnCh sep s
    else
      match splitOnCh sep s with
      | [] => [[x]]
      | seg :: segs => (x :: seg) :: segs

/-- The function `deriveModelName`: use the trimmed remote name when
non-empty, else title-case the identifier segment after the first slash
(or the whole identifier when there is none) with dashes and underscores
replaced by spaces.  The remote name is a plain string at every call site
(`undefined` behaves as the empty string). -/
def deriveModelName (modelId : String) (apiName : String) : String :=
  let idPart := ((splitOnCh '/' modelId.data).get? 1).getD modelId.data
  let derived := String.mk (titleCaseAux false
    (idPart.map (fun c => if c = '-' || c = '_' then ' ' else c)))
  if trimL apiName.data ≠ [] then String.mk (trimL apiName.data) else derived

example : deriveModelName "openai/gpt-4o-mini" "" = "Gpt 4o Mini" := by decide
example : deriveModelName "openai/gpt-4o" "  GPT-4o  " = "GPT-4o" := by decide

/-- One row appended to the catalog file (interface `ModelYaml`). -/
structure ModelYaml where
  id : String
  name : String
  provider : String
  license : String
deriving DecidableEq

/-- The new-model selection loop of the update script: a candidate
`(id, name)` is dropped when its id is already in the catalog, contains a
variant delimiter `:` (provider-variant suffixes such as free, extended,
nitro), or has no `LICENSE_MAP` row; the survivors become `ModelYaml`
rows in candidate order. -/
def newModelsFrom (existingIds : List String) (candidates : List (String × String)) :
    List ModelYaml :=
  candidates.filterMap (fun c =>
    if existingIds.contains c.1 then none
    else if c.1.data.contains ':' then none
    else
      match getLicenseInfo c.1 with
      | none => none
      | some li =>
        some { id := c.1, name := deriveModelName c.1 c.2, provider := li.2, license := li.1 })

/-! ## Theorems: Topic Classifier -/

theorem searchAt_of_matchAt (segs : List (List Char)) (s : List Char)
    (h : matchAt segs s = true) : searchAt segs s = true := by
  cases s with
  | nil => simpa [searchAt] using h
  | cons c s => simp [searchAt, h]

theorem searchAt_append (segs : List (List Char)) (pre s : List Char)
    (h : searchAt segs s = true) : searchAt segs (pre ++ s) = true := by
  induction pre with
  | nil => simpa using h
  | cons c pre ih => simp [searchAt, ih]

theorem searchAt_single (seg pre post : List Char) :
    searchAt [seg] (pre ++ (seg ++ post)) = true := by
  apply searchAt_append
  apply searchAt_of_matchAt
  simp [matchAt, matchDot, List.isPrefixOf_iff_prefix, List.prefix_append]

/-- Claim C5 — the Topic Classifier is deterministic: for every input text,
two invocations of topic detection on equal texts yield equal topic lists,
element for element and in the same order. -/
theorem detectTopics_deterministic (t₁ t₂ : String) (h : t₁ = t₂) :
    List.Forall₂ (fun a b => a = b) (detectTopics t₁) (detectTopics t₂) := by
  subst h
  exact List.forall₂_same.mpr (fun x _ => rfl)

theorem detectTopics_deterministic_witness :
    List.Forall₂ (fun a b => a = b)
      (detectTopics "Sloths move slowly") (detectTopics "Sloths move slowly") :=
  detectTopics_deterministic "Sloths move slowly" "Sloths move slowly" rfl

/-- Claim C7 — every response text containing the substring "jellyfish"
anywhere, in any letter case (a fragment whose lowercasing is exactly
"jellyfish"), is classified with the topic label "jellyfish". -/
theorem detectTopics_jellyfish (text pre core suf : String)
    (hsplit : text = pre ++ core ++ suf)
    (hcore : lowerL core.data = "jellyfish".data) :
    "jellyfish" ∈ detectTopics text := by
  subst hsplit
  unfold detectTopics
  simp only [List.mem_map]
  refine ⟨("jellyfish", ["jellyfish", "medusa", "cnidarian"]),
    List.mem_filter.mpr ⟨by decide, ?_⟩, rfl⟩
  apply List.any_eq_true.mpr
  refine ⟨"jellyfish", by decide, ?_⟩
  show regexTestL "jellyfish".data (lowerL (pre ++ core ++ suf).data) = true
  have hdata : (pre ++ core ++ suf).data = pre.data ++ (core.data ++ suf.data) := by
    simp [String.data_append]
  rw [hdata]
  unfold regexTestL lowerL
  rw [List.map_append, List.map_append]
  show searchAt (splitSegs "jellyfish".data) _ = true
  have hsegs : splitSegs "jellyfish".data = ["jellyfish".data] := by decide
  rw [hsegs]
  rw [show (List.map Char.toLower core.data = "jellyfish".data) from hcore]
  exact searchAt_single "jellyfish".data (List.map Char.toLower pre.data)
    (List.map Char.toLower suf.data)

theorem detectTopics_jellyfish_witness :
    "jellyfish" ∈ detectTopics "A JELLYFISH has no brain" :=
  detectTopics_jellyfish "A JELLYFISH has no brain" "A " "JELLYFISH" " has no brain"
    (by decide) (by decide)

/-! ## Theorems: Discovery Updater -/

theorem newModels_no_variant (existingIds : List String)
    (candidates : List (String × String)) (m : ModelYaml)
    (hm : m ∈ newModelsFrom existingIds candidates) :
    m.id.data.contains ':' = false := by
  simp only [newModelsFrom, List.mem_filterMap] at hm
  obtain ⟨a, _, hfa⟩ := hm
  simp at hfa
  obtain ⟨-, hnc, hmatch⟩ := hfa
  cases hli : getLicenseInfo a.1 with
  | none => rw [hli] at hmatch; simp at hmatch
  | some li =>
    rw [hli] at hmatch
    simp only [Option.some.injEq] at hmatch
    rw [← hmatch]
    simpa using hnc

/-- Claim C8 — a discovered candidate whose identifier contains the variant
delimiter ":" never appears in the new-model list, whatever the existing
catalog and candidate pool. -/
theorem variant_candidates_excluded (existingIds : List String)
    (candidates : List (String × String)) (c : String × String)
    (_hc : c ∈ candidates) (hcolon : c.1.data.contains ':' = true) :
    c.1 ∉ (newModelsFrom existingIds candidates).map ModelYaml.id := by
  intro hmem
  simp only [List.mem_map] at hmem
  obtain ⟨m, hm, hid⟩ := hmem
  have hno := newModels_no_variant existingIds candidates m hm
  rw [hid] at hno
  rw [hno] at hcolon
  exact Bool.false_ne_true hcolon

theorem variant_candidates_excluded_witness :
    isAllowedModel "openai/gpt-4:free" = true ∧
    "openai/gpt-4:free" ∉
      (newModelsFrom [] [("openai/gpt-4:free", "")]).map ModelYaml.id :=
  ⟨by decide,
   variant_candidates_excluded [] [("openai/gpt-4:free", "")] ("openai/gpt-4:free", "")
     (by decide) (by decide)⟩

/-! ## Theorems: merge pipeline -/

theorem mainLoop_spec (query : ModelConfig → List RunResult) (ids : List String)
    (ms : List ModelConfig) :
    ∀ (results : List ModelEntry) (log : List String),
    mainLoop query ids results log ms =
      (results ++ (ms.filter (fun m => !ids.contains m.id)).map (fun m => entryFor m (query m)),
       log ++ (ms.filter (fun m => !ids.contains m.id)).map (fun m => m.id)) := by
  induction ms with
  | nil => intro results log; simp [mainLoop]
  | cons m ms ih =>
    intro results log
    by_cases h : m.id ∈ ids
    · simp [mainLoop, h, ih]
    · simp [mainLoop, h, ih (results ++ [entryFor m (query m)]) (log ++ [m.id])]

/-- Claim C10 — in append mode the output models sequence is exactly the
previously persisted entries, in their original order, followed by the
freshly queried entries in (filtered) catalog order; in particular the
persisted entries form the prefix of the output whatever the catalog and
filter are. -/
theorem append_preserves_existing (existing : List ModelEntry) (catalog : List ModelConfig)
    (filterParts : Option (List String)) (query : ModelConfig → List RunResult) :
    (runPipeline existing catalog filterParts query).1 =
      existing ++
        ((applyFilter filterParts catalog).filter
          (fun m => !(existing.map (fun e => e.id)).contains m.id)).map
          (fun m => entryFor m (query m)) ∧
    (runPipeline existing catalog filterParts query).1.take existing.length = existing := by
  have h := mainLoop_spec query (existing.map (fun e => e.id))
    (applyFilter filterParts catalog) existing []
  constructor
  · rw [runPipeline, h]
  · rw [runPipeline, h]
    exact List.take_left existing _

/-- Claim C3 — in append mode, a `ModelEntry` already present in the
persisted dataset appears in the output dataset unchanged, and the Query
Orchestrator is never invoked for its id (the second pipeline component
logs the ids the orchestrator was invoked for). -/
theorem append_skips_existing (existing : List ModelEntry) (catalog : List ModelConfig)
    (filterParts : Option (List String)) (query : ModelConfig → List RunResult)
    (X : ModelEntry) (hX : X ∈ existing) :
    X ∈ (runPipeline existing catalog filterParts query).1 ∧
    X.id ∉ (runPipeline existing catalog filterParts query).2 := by
  have h := mainLoop_spec query (existing.map (fun e => e.id))
    (applyFilter filterParts catalog) existing []
  constructor
  · rw [runPipeline, h]
    exact List.mem_append_left _ hX
  · rw [runPipeline, h]
    intro hmem
    simp only [List.nil_append, List.mem_map, List.mem_filter] at hmem
    obtain ⟨m, ⟨-, hnc⟩, hid⟩ := hmem
    have hXid : X.id ∈ existing.map (fun e => e.id) := List.mem_map.mpr ⟨X, hX, rfl⟩
    rw [hid] at hnc
    simp at hnc
    exact absurd hXid (by simpa using hnc)

/-- A concrete persisted entry for the witnesses below. -/
def exEntry : ModelEntry :=
  { id := "openai/gpt-4o", name := "GPT-4o", provider := "OpenAI", license := "commercial"
    runs := [{ success := true, content := some "Honey never spoils.", topics := some ["honey"] }] }

/-- A concrete catalog containing the persisted model and a new one. -/
def exCatalog : List ModelConfig :=
  [ { id := "openai/gpt-4o", name := "GPT-4o", provider := "OpenAI", license := "commercial" },
    { id := "x-ai/grok-3", name := "Grok 3", provider := "xAI", license := "commercial" } ]

theorem append_skips_existing_witness :
    exEntry ∈ (runPipeline [exEntry] exCatalog none (fun _ => [])).1 ∧
    exEntry.id ∉ (runPipeline [exEntry] exCatalog none (fun _ => [])).2 :=
  append_skips_existing [exEntry] exCatalog none (fun _ => []) exEntry (by simp)

/-! ## Theorems: per-attempt query and retry ladder -/

/-- Claim C6 — a non-2xx response is recorded as a failed RunResult whose
error is the kind-`http_error` string `"HTTP <status>: "` followed by the
diagnostic body truncated to at most 200 characters, and no attempt outcome
ever aborts the batch: the run loop always yields one stored RunResult per
configured run. -/
theorem http_error_recorded (resp : HttpResponse) (h : respOk resp.status = false) :
    queryModel (.ok resp) =
      { success := false, content := none,
        error := some ("HTTP " ++ toString resp.status ++ ": " ++ sliceTo 200 resp.body) } ∧
    (sliceTo 200 resp.body).length ≤ 200 ∧
    ∀ (oracles : Nat → Nat → FetchOutcome) (n : Nat), (modelRuns oracles n).length = n := by
  refine ⟨?_, ?_, ?_⟩
  · simp [queryModel, h]
  · show (String.mk (resp.body.data.take 200)).length ≤ 200
    have hl : (String.mk (resp.body.data.take 200)).length = (resp.body.data.take 200).length := rfl
    rw [hl, List.length_take]
    omega
  · intro oracles n
    simp [modelRuns]

theorem http_error_recorded_witness :
    queryModel (.ok ⟨429, "rate limited", .bad "x"⟩) =
      { success := false, content := none,
        error := some ("HTTP " ++ toString (429 : Nat) ++ ": " ++ sliceTo 200 "rate limited") } ∧
    (modelRuns (fun _ _ => .timeoutErr) 3).length = 3 :=
  ⟨(http_error_recorded ⟨429, "rate limited", .bad "x"⟩ (by decide)).1,
   (http_error_recorded ⟨429, "rate limited", .bad "x"⟩ (by decide)).2.2 (fun _ _ => .timeoutErr) 3⟩

/-- Claim C2 — when the first request and the first boosted retry return
success with empty content and the second boosted retry returns success
with non-empty content, the stored RunResult is a success carrying that
non-empty content, and the producing request (attempt 2) used the boosted
budget 5000 from the escalation ladder, which differs from the configured
`max_tokens` whenever the latter is not itself 5000. -/
theorem boosted_retry_success (maxTokens : Nat) (oracle : Nat → FetchOutcome)
    (h0s : (queryModel (oracle 0)).success = true)
    (h0e : emptyContent (queryModel (oracle 0)).content = true)
    (h1s : (queryModel (oracle 1)).success = true)
    (h1e : emptyContent (queryModel (oracle 1)).content = true)
    (h2s : (queryModel (oracle 2)).success = true)
    (h2e : emptyContent (queryModel (oracle 2)).content = false) :
    runAttempt oracle = (queryModel (oracle 2), 2) ∧
    (doRun oracle).success = true ∧
    (doRun oracle).content = (queryModel (oracle 2)).content ∧
    emptyContent (doRun oracle).content = false ∧
    attemptTokens maxTokens 2 = 5000 ∧
    (maxTokens ≠ 5000 → attemptTokens maxTokens 2 ≠ maxTokens) := by
  have hrun : runAttempt oracle = (queryModel (oracle 2), 2) := by
    simp [runAttempt, retryTokens, retryLoopAux, h0s, h0e, h1s, h1e, h2s, h2e]
  refine ⟨hrun, ?_, ?_, ?_, rfl, ?_⟩
  · simp [doRun, hrun, finalizeRun, h2s]
  · simp [doRun, hrun, finalizeRun, h2s]
  · simp [doRun, hrun, finalizeRun, h2s, h2e]
  · exact fun hne heq => hne heq.symm

/-- Oracle for the C2 witness: two empty-content successes, then a success
with content on the third request. -/
def exOracleBoost : Nat → FetchOutcome := fun i =>
  .ok ⟨200, "",
    .good ⟨if i < 2 then "" else "Octopuses have three hearts.", none, some "stop"⟩
      (some ⟨some 12, some 40, none⟩)⟩

theorem boosted_retry_success_witness :
    runAttempt exOracleBoost = (queryModel (exOracleBoost 2), 2) ∧
    (doRun exOracleBoost).success = true ∧
    (doRun exOracleBoost).content = (queryModel (exOracleBoost 2)).content ∧
    emptyContent (doRun exOracleBoost).content = false ∧
    attemptTokens 1000 2 = 5000 ∧
    (1000 ≠ 5000 → attemptTokens 1000 2 ≠ 1000) :=
  boosted_retry_success 1000 exOracleBoost (by decide) (by decide) (by decide) (by decide)
    (by decide) (by decide)

/-- Oracle returning, on every request, a 2xx success whose content is
empty (for instance because the token budget was consumed by reasoning). -/
def emptyOracle : Nat → FetchOutcome := fun _ =>
  .ok ⟨200, "", .good ⟨"", none, some "length"⟩ (some ⟨some 12, some 0, some 2000⟩)⟩

/-- Counterexample to claim C1: every attempt of the ladder (the initial
request and the three boosted retries) is a success with empty content,
yet the stored RunResult is not a recorded failure — it still has
`success = true` and no error. -/
theorem empty_ladder_stored_as_success :
    ((queryModel (emptyOracle 0)).success = true ∧
      emptyContent (queryModel (emptyOracle 0)).content = true) ∧
    ((queryModel (emptyOracle 1)).success = true ∧
      emptyContent (queryModel (emptyOracle 1)).content = true) ∧
    ((queryModel (emptyOracle 2)).success = true ∧
      emptyContent (queryModel (emptyOracle 2)).content = true) ∧
    ((queryModel (emptyOracle 3)).success = true ∧
      emptyContent (queryModel (emptyOracle 3)).content = true) ∧
    (doRun emptyOracle).success = true ∧
    (doRun emptyOracle).error = none := by decide

/-- Amended claim C1 — when every attempt on the retry ladder returns
success with empty or whitespace-only content until the ladder is
exhausted, the stored RunResult is the result of the last boosted attempt:
still a success (`success = true`) with empty content; exhaustion does not
convert it into a recorded failure. -/
theorem ladder_exhaustion_keeps_success (oracle : Nat → FetchOutcome)
    (h : ∀ i, i ≤ retryTokens.length →
      (queryModel (oracle i)).success = true ∧
      emptyContent (queryModel (oracle i)).content = true) :
    runAttempt oracle = (queryModel (oracle 3), 3) ∧
    (doRun oracle).success = true ∧
    emptyContent (doRun oracle).content = true := by
  have h0 := h 0 (by decide)
  have h1 := h 1 (by decide)
  have h2 := h 2 (by decide)
  have h3 := h 3 (by decide)
  have hrun : runAttempt oracle = (queryModel (oracle 3), 3) := by
    simp [runAttempt, retryTokens, retryLoopAux, h0.1, h0.2, h1.1, h1.2, h2.1, h2.2]
  refine ⟨hrun, ?_, ?_⟩
  · simp [doRun, hrun, finalizeRun, h3.1]
  · simp [doRun, hrun, finalizeRun, h3.1, h3.2]

set_option maxRecDepth 8192 in
theorem ladder_exhaustion_keeps_success_witness :
    runAttempt emptyOracle = (queryModel (emptyOracle 3), 3) ∧
    (doRun emptyOracle).success = true ∧
    emptyContent (doRun emptyOracle).content = true :=
  ladder_exhaustion_keeps_success emptyOracle (by decide)

/-- Response whose 201-character body shows that the recorded error string
of a non-2xx attempt is longer than 200 characters. -/
def longBodyResp : HttpResponse := ⟨500, String.mk (List.replicate 201 'a'), .bad "x"⟩

set_option maxRecDepth 8192 in
/-- Counterexample to claim C9: for a non-2xx response the error string is
the status prefix plus the 200-character body slice, 210 characters in
total — the full error string is not truncated to at most 200 characters. -/
theorem http_error_string_exceeds_200 :
    (queryModel (.ok longBodyResp)).success = false ∧
    ((queryModel (.ok longBodyResp)).error.getD "").length = 210 := by decide

/-- Amended claim C9 — the per-attempt query operation is total over every
fetch outcome and always returns a RunResult; in each failure case it has
`success = false`, `content = none` and a present error string: exactly
`"timeout"` on timeout; the thrown message truncated to at most 200
characters on any other exception (including malformed or structurally
unexpected JSON of a 2xx response); and on a non-2xx response the string
`"HTTP <status>: "` followed by the body truncated to at most 200
characters. -/
theorem queryModel_failure_modes (msg : String) (status : Nat) (body : String)
    (p : ParsedBody) (m : String) :
    queryModel .timeoutErr = { success := false, content := none, error := some "timeout" } ∧
    queryModel (.thrownErr msg) =
      { success := false, content := none, error := some (sliceTo 200 msg) } ∧
    (sliceTo 200 msg).length ≤ 200 ∧
    (respOk status = false →
      queryModel (.ok ⟨status, body, p⟩) =
        { success := false, content := none,
          error := some ("HTTP " ++ toString status ++ ": " ++ sliceTo 200 body) } ∧
      (sliceTo 200 body).length ≤ 200) ∧
    (respOk status = true →
      queryModel (.ok ⟨status, body, .bad m⟩) =
        { success := false, content := none, error := some (sliceTo 200 m) } ∧
      (sliceTo 200 m).length ≤ 200) := by
  refine ⟨rfl, rfl, ?_, fun h => ⟨?_, ?_⟩, fun h => ⟨?_, ?_⟩⟩
  · show (String.mk (msg.data.take 200)).length ≤ 200
    have hl : (String.mk (msg.data.take 200)).length = (msg.data.take 200).length := rfl
    rw [hl, List.length_take]
    omega
  · simp [queryModel, h]
  · show (String.mk (body.data.take 200)).length ≤ 200
    have hl : (String.mk (body.data.take 200)).length = (body.data.take 200).length := rfl
    rw [hl, List.length_take]
    omega
  · simp [queryModel, h]
  · show (String.mk (m.data.take 200)).length ≤ 200
    have hl : (String.mk (m.data.take 200)).length = (m.data.take 200).length := rfl
    rw [hl, List.length_take]
    omega

theorem queryModel_failure_modes_witness :
    queryModel .timeoutErr = { success := false, content := none, error := some "timeout" } ∧
    queryModel (.ok ⟨503, "overloaded", .bad "bad json"⟩) =
      { success := false, content := none,
        error := some ("HTTP " ++ toString (503 : Nat) ++ ": " ++ sliceTo 200 "overloaded") } ∧
    queryModel (.ok ⟨200, "", .bad "unexpected shape"⟩) =
      { success := false, content := none, error := some (sliceTo 200 "unexpected shape") } :=
  ⟨(queryModel_failure_modes "x" 0 "" (.bad "y") "z").1,
   ((queryModel_failure_modes "x" 503 "overloaded" (.bad "bad json") "bad json").2.2.2.1
     (by decide)).1,
   ((queryModel_failure_modes "x" 200 "" (.bad "u") "unexpected shape").2.2.2.2 (by decide)).1⟩

/-! ## Theorems: statistics (`computeStats`)

Correctness of the insertion-ordered count accumulation, then of the stable
descending sort and the top-20 truncation.
-/

/-- Value at a key of the association list (the object read
`topicCounts[topic]`). -/
def lookupC (acc : List (String × Nat)) (t : String) : Option Nat :=
  (acc.find? (fun p => p.1 = t)).map Prod.snd

theorem bump_keys (t : String) : ∀ (acc : List (String × Nat)),
    (bump acc t).map Prod.fst =
      if t ∈ acc.map Prod.fst then acc.map Prod.fst else acc.map Prod.fst ++ [t]
  | [] => by simp [bump]
  | p :: acc => by
    by_cases h : p.1 = t
    · simp [bump, h]
    · have ih := bump_keys t acc
      by_cases hm : t ∈ acc.map Prod.fst
      · simp [bump, h, hm, ih, Ne.symm h]
      · simp [bump, h, hm, ih, Ne.symm h]

theorem lookupC_bump (t u : String) : ∀ (acc : List (String × Nat)),
    lookupC (bump acc t) u =
      if u = t then some ((lookupC acc t).getD 0 + 1) else lookupC acc u
  | [] => by
    by_cases h : u = t
    · simp [bump, lookupC, h]
    · have h' : ¬t = u := fun hh => h hh.symm
      simp [bump, lookupC, h, h']
  | p :: acc => by
    by_cases hpt : p.1 = t
    · by_cases hut : u = t
      · simp [bump, lookupC, hpt, hut, List.find?_cons_of_pos]
      · have hpu : ¬p.1 = u := by rw [hpt]; exact fun hh => hut hh.symm
        have htu : ¬t = u := fun hh => hut hh.symm
        simp [bump, lookupC, hpt, hut, hpu, htu]
    · by_cases hpu : p.1 = u
      · have hut : ¬u = t := by rw [← hpu]; exact hpt
        simp [bump, lookupC, hpt, hpu, hut]
      · have ih := lookupC_bump t u acc
        simp [bump, lookupC, hpt, hpu] at ih ⊢
        exact ih

theorem lookupC_foldl_bump : ∀ (s : List String) (acc : List (String × Nat)) (u : String),
    lookupC (s.foldl bump acc) u =
      if u ∈ s then some ((lookupC acc u).getD 0 + s.count u) else lookupC acc u
  | [], acc, u => by simp
  | t :: ts, acc, u => by
    rw [List.foldl_cons, lookupC_foldl_bump ts (bump acc t) u]
    by_cases hut : u = t
    · subst hut
      by_cases hts : u ∈ ts
      · simp [lookupC_bump, hts]
        omega
      · have hc : ts.count u = 0 := List.count_eq_zero.mpr hts
        simp [lookupC_bump, hts, hc]
    · rw [lookupC_bump, if_neg hut]
      by_cases hts : u ∈ ts
      · simp [hts, List.count_cons_of_ne hut]
      · have hm : u ∉ t :: ts := by simp [hut, hts]
        simp [hts, hm]

theorem lookupC_mem : ∀ (acc : List (String × Nat)) (p : String × Nat),
    (acc.map Prod.fst).Nodup → p ∈ acc → lookupC acc p.1 = some p.2
  | [], p => by simp
  | q :: acc, p => by
    intro hnd hp
    rcases List.mem_cons.mp hp with rfl | hp'
    · simp [lookupC]
    · have hq : q.1 ≠ p.1 := by
        intro hc
        have : p.1 ∈ acc.map Prod.fst := List.mem_map.mpr ⟨p, hp', rfl⟩
        rw [← hc] at this
        exact (List.nodup_cons.mp (by simpa using hnd)).1 this
      have ih := lookupC_mem acc p (List.nodup_cons.mp (by simpa using hnd)).2 hp'
      simp [lookupC, hq] at ih ⊢
      exact ih

theorem bump_keys_nodup (acc : List (String × Nat)) (t : String)
    (h : (acc.map Prod.fst).Nodup) : ((bump acc t).map Prod.fst).Nodup := by
  rw [bump_keys]
  by_cases ht : t ∈ acc.map Prod.fst
  · simpa [ht] using h
  · simpa [ht, List.nodup_append] using h

theorem foldl_bump_keys_nodup : ∀ (s : List String) (acc : List (String × Nat)),
    (acc.map Prod.fst).Nodup → ((s.foldl bump acc).map Prod.fst).Nodup
  | [], _acc => fun h => h
  | t :: ts, acc => fun h =>
    foldl_bump_keys_nodup ts (bump acc t) (bump_keys_nodup acc t h)

theorem topicCounts_keys_nodup (models : List ModelEntry) :
    ((topicCounts models).map Prod.fst).Nodup :=
  foldl_bump_keys_nodup (topicStream models) [] (by simp)

theorem topicCounts_count (models : List ModelEntry) (p : String × Nat)
    (hp : p ∈ topicCounts models) : p.2 = (topicStream models).count p.1 := by
  have hl := lookupC_mem (topicCounts models) p (topicCounts_keys_nodup models) hp
  have hf := lookupC_foldl_bump (topicStream models) [] p.1
  rw [show topicCounts models = (topicStream models).foldl bump [] from rfl, hf] at hl
  have hnil : lookupC [] p.1 = none := rfl
  by_cases hm : p.1 ∈ topicStream models
  · rw [if_pos hm, hnil] at hl
    simp at hl
    omega
  · rw [if_neg hm, hnil] at hl
    simp at hl

theorem foldl_bump_keys : ∀ (s : List String) (acc : List (String × Nat)),
    (s.foldl bump acc).map Prod.fst =
      s.foldl (fun ks t => if t ∈ ks then ks else ks ++ [t]) (acc.map Prod.fst)
  | [], _acc => rfl
  | t :: ts, acc => by
    rw [List.foldl_cons, List.foldl_cons, foldl_bump_keys ts (bump acc t), bump_keys]

/-- The key sequence of the accumulated count object is exactly the
first-encountered order of the topics in the stream. -/
theorem topicCounts_keys (models : List ModelEntry) :
    (topicCounts models).map Prod.fst = firstDedup (topicStream models) := by
  rw [show topicCounts models = (topicStream models).foldl bump [] from rfl,
    foldl_bump_keys]
  rfl

theorem leC_trans : ∀ (a b c : String × Nat),
    (fun x y : String × Nat => (y.2 ≤ x.2 : Bool)) a b →
    (fun x y : String × Nat => (y.2 ≤ x.2 : Bool)) b c →
    (fun x y : String × Nat => (y.2 ≤ x.2 : Bool)) a c := by
  intro a b c h1 h2
  simp at h1 h2 ⊢
  omega

theorem leC_total : ∀ (a b : String × Nat),
    ((fun x y : String × Nat => (y.2 ≤ x.2 : Bool)) a b ||
     (fun x y : String × Nat => (y.2 ≤ x.2 : Bool)) b a) = true := by
  intro a b
  simp [Bool.or_eq_true]
  omega

theorem pair_sublist_of_mem {α : Type} {a b : α} (hab : a ≠ b) :
    ∀ {l : List α}, a ∈ l → b ∈ l → [a, b].Sublist l ∨ [b, a].Sublist l := by
  intro l
  induction l with
  | nil => intro ha _; exact absurd ha (List.not_mem_nil a)
  | cons c l ih =>
    intro ha hb
    rcases List.mem_cons.mp ha with rfl | ha'
    · have hb' : b ∈ l := by
        rcases List.mem_cons.mp hb with hh | hh
        · exact absurd hh.symm hab
        · exact hh
      exact Or.inl (List.Sublist.cons₂ a (List.singleton_sublist.mpr hb'))
    · rcases List.mem_cons.mp hb with rfl | hb'
      · exact Or.inr (List.Sublist.cons₂ b (List.singleton_sublist.mpr ha'))
      · rcases ih ha' hb' with h | h
        · exact Or.inl (h.cons c)
        · exact Or.inr (h.cons c)

theorem pair_sublist_antisymm {α : Type} {a b : α} :
    ∀ {l : List α}, l.Nodup → [a, b].Sublist l → [b, a].Sublist l → False := by
  intro l
  induction l with
  | nil => intro _ h _; simp at h
  | cons c l ih =>
    intro hnd h1 h2
    cases h1 with
    | cons _ h1' =>
      cases h2 with
      | cons _ h2' => exact ih hnd.of_cons h1' h2'
      | cons₂ _ hh2 =>
        have hbl : b ∈ l := h1'.subset (by simp)
        exact (List.nodup_cons.mp hnd).1 hbl
    | cons₂ _ hh1 =>
      cases h2 with
      | cons _ h2' =>
        have hal : a ∈ l := h2'.subset (by simp)
        exact (List.nodup_cons.mp hnd).1 hal
      | cons₂ _ hh2 =>
        have hal : a ∈ l := hh2.subset (by simp)
        exact (List.nodup_cons.mp hnd).1 hal

/-- Claim C4 — for every model sequence, `topic_frequency` assigns each
listed topic its exact occurrence count over the topics of successful runs
only, has at most 20 entries, is ordered by count descending, and breaks
count ties by first-encountered order: two tied entries appear in the order
in which their topics are first encountered in the successful-run topic
stream. -/
theorem topic_frequency_correct (models : List ModelEntry) :
    (∀ p ∈ topicFrequency models, p.2 = (topicStream models).count p.1) ∧
    (topicFrequency models).length ≤ 20 ∧
    (topicFrequency models).Pairwise (fun a b => b.2 ≤ a.2) ∧
    (∀ a b, [a, b].Sublist (topicFrequency models) → a.2 = b.2 →
      [a.1, b.1].Sublist (firstDedup (topicStream models))) := by
  have hsub : ∀ p ∈ topicFrequency models, p ∈ topicCounts models := by
    intro p hp
    have h1 : p ∈ (topicCounts models).mergeSort (fun x y => y.2 ≤ x.2) :=
      (List.take_sublist 20 _).subset hp
    exact List.mem_mergeSort.mp h1
  refine ⟨?_, ?_, ?_, ?_⟩
  · intro p hp
    exact topicCounts_count models p (hsub p hp)
  · rw [show topicFrequency models =
        (((topicCounts models).mergeSort (fun x y => y.2 ≤ x.2)).take 20) from rfl,
      List.length_take]
    omega
  · apply List.Pairwise.sublist (List.take_sublist 20 _)
    have h := @List.sorted_mergeSort (String × Nat) (fun x y => (y.2 ≤ x.2 : Bool))
      leC_trans leC_total (topicCounts models)
    exact h.imp (by intro a b hh; simpa using hh)
  · intro a b hab htie
    have hsorted : [a, b].Sublist ((topicCounts models).mergeSort (fun x y => y.2 ≤ x.2)) :=
      hab.trans (List.take_sublist 20 _)
    have hknd : (topicCounts models).Nodup := (topicCounts_keys_nodup models).of_map
    have hsnd : ((topicCounts models).mergeSort (fun x y => y.2 ≤ x.2)).Nodup :=
      ((List.mergeSort_perm (topicCounts models) _).nodup_iff).mpr hknd
    have hne : a ≠ b := by
      intro hEq
      subst hEq
      have := hsnd.sublist hsorted
      simp at this
    have ha : a ∈ topicCounts models := List.mem_mergeSort.mp (hsorted.subset (by simp))
    have hb : b ∈ topicCounts models := List.mem_mergeSort.mp (hsorted.subset (by simp))
    have hkey : [a, b].Sublist (topicCounts models) := by
      rcases pair_sublist_of_mem hne ha hb with h | h
      · exact h
      · exfalso
        have hba : [b, a].Sublist ((topicCounts models).mergeSort (fun x y => y.2 ≤ x.2)) :=
          List.pair_sublist_mergeSort leC_trans leC_total (by simp [htie]) h
        exact pair_sublist_antisymm hsnd hsorted hba
    have hmap := hkey.map Prod.fst
    rwa [topicCounts_keys] at hmap

/-- A concrete dataset for the C4 witness: one model with two successful
runs (topics jellyfish twice, octopus once) and one failed run whose topics
must not be counted. -/
def exModels : List ModelEntry :=
  [ { id := "m1", name := "M1", provider := "P", license := "commercial",
      runs :=
        [ { success := true, content := some "a", topics := some ["jellyfish"] },
          { success := true, content := some "b", topics := some ["jellyfish", "octopus"] },
          { success := false, content := none, topics := some ["sloths"],
            error := some "timeout" } ] } ]

theorem topic_frequency_correct_witness :
    ("jellyfish", 2) ∈ topicFrequency exModels ∧
    (2 : Nat) = (topicStream exModels).count "jellyfish" := by
  have hc : topicCounts exModels = [("jellyfish", 2), ("octopus", 1)] := by decide
  have hfreq : topicFrequency exModels = [("jellyfish", 2), ("octopus", 1)] := by
    rw [show topicFrequency exModels =
        (((topicCounts exModels).mergeSort (fun x y => y.2 ≤ x.2)).take 20) from rfl,
      hc, List.mergeSort_of_sorted (by decide)]
    rfl
  refine ⟨?_, ?_⟩
  · rw [hfreq]; decide
  · exact (topic_frequency_correct exModels).1 ("jellyfish", 2) (by rw [hfreq]; decide)
